import Mathlib

/-!
Verification of the element-crafter HTML builder (src/src/htmlBuilder.ts),
server-rendering (SSR) core: escaping, attribute validation/serialization,
content flattening and element construction.

The definitions below are a shallow embedding of the TypeScript source.
JavaScript strings are modelled by `String`, attribute maps by association
lists in insertion order (`Object.entries` order for literal objects),
exceptions by `Except`, and `undefined`-able booleans by `Option Bool`.
Definitions whose names end in `Spec` restate the specification's wording
and are compared against the definitions taken from the source.
-/

/-- ASCII lower-casing of a character, as JavaScript `toLowerCase` acts on
the ASCII tag and attribute names used by the builder. -/
def lowerChar (c : Char) : Char :=
  if 'A' ≤ c ∧ c ≤ 'Z' then Char.ofNat (c.toNat + 32) else c

/-- `String.prototype.toLowerCase` restricted to ASCII input. -/
def lowerStr (s : String) : String :=
  String.mk (s.data.map lowerChar)

/-- The entity `&amp;`. -/
def ampE : List Char := ['&', 'a', 'm', 'p', ';']

/-- The entity `&lt;`. -/
def ltE : List Char := ['&', 'l', 't', ';']

/-- The entity `&gt;`. -/
def gtE : List Char := ['&', 'g', 't', ';']

/-- The entity `&quot;`. -/
def quotE : List Char := ['&', 'q', 'u', 'o', 't', ';']

/-- The entity `&#039;`. -/
def aposE : List Char := ['&', '#', '0', '3', '9', ';']

/-- JavaScript `s.replace(/c/g, r)` for a single-character pattern `c`:
every occurrence of the character is replaced independently. -/
def replaceChar (c : Char) (r : List Char) (s : List Char) : List Char :=
  s.bind (fun x => if x = c then r else [x])

/-- `HtmlBuilder.escapeHtml` on the character list: the source applies, in
this fixed order, the five global replacements
`&`→`&amp;`, `<`→`&lt;`, `>`→`&gt;`, `"`→`&quot;`, `'`→`&#039;`. -/
def escapeHtmlL (s : List Char) : List Char :=
  replaceChar '\'' aposE
    (replaceChar '"' quotE
      (replaceChar '>' gtE
        (replaceChar '<' ltE
          (replaceChar '&' ampE s))))

/-- `HtmlBuilder.escapeHtml` (htmlBuilder.ts lines 179-187) on string input.
(The source's `content == null` guard and `String(content)` coercion concern
non-string inputs, which do not occur at this call site granularity.) -/
def escapeHtml (s : String) : String :=
  String.mk (escapeHtmlL s.data)

/-- JavaScript `hay.includes(needle)`: substring test. -/
def containsSub (needle hay : String) : Bool :=
  hay.data.tails.any (fun t => needle.data.isPrefixOf t)

/-- An `AttributeValue | EventHandler` as stored in an attribute map:
string, number, boolean, `null`/`undefined`, or a callable event handler. -/
inductive AttrVal where
  | str (s : String)
  | num (n : Int)
  | bool (b : Bool)
  | null
  | fn
  deriving DecidableEq

/-- The two failure conditions of the validation layer: the `TypeError`
thrown for an invalid attribute name and the `DOMException` thrown for a
potentially unsafe attribute value, each carrying its message. -/
inductive BuildError where
  | invalidAttributeName (msg : String)
  | unsafeAttributeValue (msg : String)
  deriving DecidableEq

/-- The builder configuration after the constructor has applied its
defaults (`Required<BuilderConfig>`): `escapeContent` and
`validateAttributes` default to `true`, `customVoidTags` to the empty set.
The custom void tag set is modelled as a list (membership only). -/
structure BuilderConfig where
  isSsr : Bool
  escapeContent : Bool
  validateAttributes : Bool
  customVoidTags : List String

/-- The configuration of `new HtmlBuilder({ isSsr: true })`, i.e. the
default server-mode configuration. -/
def defaultSSRConfig : BuilderConfig :=
  { isSsr := true, escapeContent := true, validateAttributes := true, customVoidTags := [] }

/-- `CreateElementOptions`: each key may be absent (`none`) or present with
a value that is itself `undefined` (`some none`) or a boolean
(`some (some b)`), matching JavaScript object spread semantics. -/
structure CreateElementOptions where
  escapeContent : Option (Option Bool)
  validateAttributes : Option (Option Bool)

/-- The result of `{ ...this.config, ...options }` restricted to the two
option fields: a present key overrides the configured default even when its
value is `undefined`. -/
structure EffectiveOpts where
  escapeContent : Option Bool
  validateAttributes : Option Bool

/-- The spread `{ ...this.config, ...options }` performed by
`createElementSSR` (line 339). -/
def mergeOpts (cfg : BuilderConfig) (options : Option CreateElementOptions) : EffectiveOpts :=
  match options with
  | none => { escapeContent := some cfg.escapeContent, validateAttributes := some cfg.validateAttributes }
  | some o =>
    { escapeContent := match o.escapeContent with
        | none => some cfg.escapeContent
        | some v => v
      validateAttributes := match o.validateAttributes with
        | none => some cfg.validateAttributes
        | some v => v }

/-- The fixed blocklist of dangerous attribute names (line 209). -/
def dangerousAttributes : List String := ["srcdoc", "formaction"]

/-- `validateAttribute` (lines 197-220): a no-op when the builder's
`validateAttributes` configuration is off; otherwise rejects empty names
with a `TypeError` and string values containing `javascript:` or
`data:text/html` under a blocklisted name with a `DOMException`. -/
def validateAttribute (cfg : BuilderConfig) (name : String) (value : AttrVal) :
    Except BuildError Unit :=
  if cfg.validateAttributes = false then .ok ()
  else if name.length = 0 then
    .error (.invalidAttributeName ("Invalid attribute name: " ++ name))
  else
    match value with
    | .str s =>
      if dangerousAttributes.contains (lowerStr name) &&
          (containsSub "javascript:" s || containsSub "data:text/html" s) then
        .error (.unsafeAttributeValue
          ("Potentially unsafe value for attribute " ++ name ++ ": " ++ s))
      else .ok ()
    | _ => .ok ()

/-- `HtmlBuilder.BOOLEAN_ATTRIBUTES` (lines 124-140). -/
def BOOLEAN_ATTRIBUTES : List String :=
  ["autofocus", "autoplay", "checked", "controls", "defer", "disabled", "hidden",
   "loop", "multiple", "muted", "open", "readonly", "required", "reversed", "selected"]

/-- JavaScript `String(value)` for attribute values; only the string and
number cases are reachable in `buildAttributeString`'s valued branch. -/
def attrValueString : AttrVal → String
  | .str s => s
  | .num n => toString n
  | .bool b => if b then "true" else "false"
  | .null => "null"
  | .fn => ""

/-- The loop body of `buildAttributeString` (lines 231-247): skip callables
before validation, validate, skip `null`/`undefined`/`false`, render `true`
or a boolean-attribute name as the bare name, and anything else as
`name="escaped-value"`. -/
def buildAttrParts (cfg : BuilderConfig) : List (String × AttrVal) → Except BuildError (List String)
  | [] => .ok []
  | (name, value) :: rest =>
    if value = AttrVal.fn then buildAttrParts cfg rest
    else
      match validateAttribute cfg name value with
      | .error e => .error e
      | .ok _ =>
        if value = AttrVal.null ∨ value = AttrVal.bool false then
          buildAttrParts cfg rest
        else if value = AttrVal.bool true ∨ BOOLEAN_ATTRIBUTES.contains name then
          match buildAttrParts cfg rest with
          | .error e => .error e
          | .ok parts => .ok (name :: parts)
        else
          match buildAttrParts cfg rest with
          | .error e => .error e
          | .ok parts =>
            .ok ((name ++ "=\"" ++ escapeHtml (attrValueString value) ++ "\"") :: parts)

/-- `buildAttributeString` (lines 228-250): the collected parts joined by
single spaces, with one leading space when nonempty. -/
def buildAttributeString (cfg : BuilderConfig) (attributes : List (String × AttrVal)) :
    Except BuildError String :=
  match buildAttrParts cfg attributes with
  | .error e => .error e
  | .ok parts => .ok (if parts.length > 0 then " " ++ String.intercalate " " parts else "")

/-- `HtmlBuilder.STANDARD_VOID_TAGS` (lines 106-121). -/
def STANDARD_VOID_TAGS : List String :=
  ["area", "base", "br", "col", "embed", "hr", "img", "input", "link", "meta",
   "param", "source", "track", "wbr"]

/-- The `voidTags` getter (lines 166-171): standard void tags unioned with
the instance's custom void tags. -/
def voidTags (cfg : BuilderConfig) : List String :=
  STANDARD_VOID_TAGS ++ cfg.customVoidTags

/-- `RenderableContent` for the server path: string, number,
`null`/`undefined`, or a nested sequence. (Client-side DOM nodes never
arise in the server-mode theorems below.) -/
inductive Content where
  | str (s : String)
  | num (n : Int)
  | null
  | list (cs : List Content)

/-- `flattenContent` (lines 258-270): recursively splice nested arrays,
keep every other item. -/
def flattenContent : List Content → List Content
  | [] => []
  | .list cs :: rest => flattenContent cs ++ flattenContent rest
  | c :: rest => c :: flattenContent rest

mutual

/-- JavaScript `String(x)` for an element inside an array being joined
(`Array.prototype.toString`): `null`/`undefined` become empty. -/
def jsContentString : Content → String
  | .null => ""
  | .str s => s
  | .num n => toString n
  | .list cs => jsArrayString cs

/-- JavaScript `String(array)`: elements stringified and joined by commas. -/
def jsArrayString : List Content → String
  | [] => ""
  | [c] => jsContentString c
  | c :: rest => jsContentString c ++ "," ++ jsArrayString rest

end

/-- `processContent` (lines 279-300), server branch: empty for
`null`/`undefined`; strings escaped exactly when the passed flag is truthy
(`undefined` counts as falsy); numbers stringified; anything else coerced
with `String(content)`. -/
def processContent (cfg : BuilderConfig) (content : Content) (escapeContent : Option Bool) :
    String :=
  match content with
  | .null => ""
  | .str s => if escapeContent = some true then escapeHtml s else s
  | .num n => toString n
  | .list cs => jsArrayString cs

/-- `createElementSSR` (lines 332-354): merge per-call options over the
configuration, serialize attributes (failures propagate), emit only the
opening tag for void tags, otherwise flatten the children, process each
with the merged `escapeContent` value, and wrap in opening and closing
tags. -/
def createElementSSR (cfg : BuilderConfig) (tagName : String)
    (attributes : List (String × AttrVal)) (options : Option CreateElementOptions)
    (children : List Content) : Except BuildError String :=
  match buildAttributeString cfg attributes with
  | .error e => .error e
  | .ok attributeString =>
    if (voidTags cfg).contains (lowerStr tagName) then
      .ok ("<" ++ tagName ++ attributeString ++ ">")
    else
      .ok ("<" ++ tagName ++ attributeString ++ ">" ++
        String.join ((flattenContent children).map
          (fun child => processContent cfg child (mergeOpts cfg options).escapeContent)) ++
        "</" ++ tagName ++ ">")

/-- `createText` (lines 411-419), server branch: the text, escaped when the
`escape` argument (default `true`) is set, returned as a plain string with
no marking of any kind. -/
def createTextSSR (text : String) (escape : Bool) : String :=
  if escape then escapeHtml text else text

deriving instance DecidableEq for Except

/-!
Specification-side definitions, written from the spec's wording, to be
compared with the definitions taken from the source above.
-/

/-- Rendering of one attribute entry as the spec words it: callables are
skipped, null/absent/false omitted, `true` or a boolean-attribute name
rendered name-only, everything else as `name="escaped-value"`. -/
def attrPartSpec : String × AttrVal → Option String
  | (_, .fn) => none
  | (_, .null) => none
  | (_, .bool false) => none
  | (n, .bool true) => some n
  | (n, v) =>
    if BOOLEAN_ATTRIBUTES.contains n then some n
    else some (n ++ "=\"" ++ escapeHtml (attrValueString v) ++ "\"")

/-- The attribute string as the spec words it: the rendered parts in
insertion order, joined by single spaces, with one leading space. -/
def attrStringSpec (attrs : List (String × AttrVal)) : String :=
  if (attrs.filterMap attrPartSpec).length > 0 then
    " " ++ String.intercalate " " (attrs.filterMap attrPartSpec)
  else ""

mutual

/-- The left-to-right sequence of leaves of one content item, as the spec
words flattening: a nested sequence contributes its own leaves in order,
anything else is itself a leaf. -/
def leafSeq : Content → List Content
  | .str s => [.str s]
  | .num n => [.num n]
  | .null => [.null]
  | .list cs => leafSeqList cs

/-- The left-to-right concatenation of the leaves of each item. -/
def leafSeqList : List Content → List Content
  | [] => []
  | c :: rest => leafSeq c ++ leafSeqList rest

end

/-- A content item that is not a nested sequence. -/
def isLeaf : Content → Bool
  | .list _ => false
  | _ => true

/-- An attribute entry with a blocklisted name (case-insensitively) and a
string value containing one of the two dangerous substrings. -/
def isDangerousEntry (p : String × AttrVal) : Bool :=
  dangerousAttributes.contains (lowerStr p.1) &&
    (match p.2 with
     | .str s => containsSub "javascript:" s || containsSub "data:text/html" s
     | _ => false)

/-- Whether a render call failed with the `UnsafeAttributeValue` condition. -/
def isUnsafeResult : Except BuildError String → Bool
  | .error (.unsafeAttributeValue _) => true
  | _ => false

/-- One of the five markup-special characters `& < > " '`. -/
def isSpecialChar (c : Char) : Bool :=
  c == '&' || c == '<' || c == '>' || c == '"' || c == '\''

/-- None of the four characters `< > " '` (the raw characters that never
survive escaping; ampersands do appear, as every entity starts with one). -/
def noRawFour (c : Char) : Bool :=
  !(c == '<' || c == '>' || c == '"' || c == '\'')

/-- JavaScript `s.replace(needle, repl)` with a global literal pattern:
scan left to right, replace each non-overlapping occurrence, and continue
after the replacement without rescanning it. -/
def replaceStr (needle repl : List Char) : List Char → List Char
  | [] => []
  | x :: xs =>
    if h : needle.isPrefixOf (x :: xs) ∧ needle ≠ [] then
      repl ++ replaceStr needle repl ((x :: xs).drop needle.length)
    else
      x :: replaceStr needle repl xs
termination_by l => l.length
decreasing_by
  · have h2 : 0 < needle.length := List.length_pos.mpr h.2
    simp only [List.length_drop, List.length_cons]
    omega
  · simp only [List.length_cons]
    omega

/-- The inverse of the five fixed replacements of `escapeHtml`: the last
replacement applied is undone first, so `&amp;`→`&` comes last. -/
def decodeHtmlL (s : List Char) : List Char :=
  replaceStr ampE ['&']
    (replaceStr aposE ['\'']
      (replaceStr quotE ['"']
        (replaceStr gtE ['>']
          (replaceStr ltE ['<'] s))))

/-- Decoding the five fixed replacements on string input. -/
def decodeHtml (s : String) : String :=
  String.mk (decodeHtmlL s.data)

/-- The per-character effect of `escapeHtml`: each special character maps
to its entity, every other character to itself. -/
def escChar (c : Char) : List Char :=
  if c = '&' then ampE
  else if c = '<' then ltE
  else if c = '>' then gtE
  else if c = '"' then quotE
  else if c = '\'' then aposE
  else [c]

/-- `escChar` after `&lt;` has been decoded. -/
def escChar1 (c : Char) : List Char :=
  if c = '&' then ampE
  else if c = '>' then gtE
  else if c = '"' then quotE
  else if c = '\'' then aposE
  else [c]

/-- `escChar` after `&lt;` and `&gt;` have been decoded. -/
def escChar2 (c : Char) : List Char :=
  if c = '&' then ampE
  else if c = '"' then quotE
  else if c = '\'' then aposE
  else [c]

/-- `escChar` after `&lt;`, `&gt;` and `&quot;` have been decoded. -/
def escChar3 (c : Char) : List Char :=
  if c = '&' then ampE
  else if c = '\'' then aposE
  else [c]

/-- `escChar` after everything but `&amp;` has been decoded. -/
def escChar4 (c : Char) : List Char :=
  if c = '&' then ampE else [c]

/-!
Basic lemmas about the escaping transform.
-/

lemma replaceChar_append (c : Char) (r xs ys : List Char) :
    replaceChar c r (xs ++ ys) = replaceChar c r xs ++ replaceChar c r ys := by
  simp [replaceChar]

lemma escapeHtmlL_append (xs ys : List Char) :
    escapeHtmlL (xs ++ ys) = escapeHtmlL xs ++ escapeHtmlL ys := by
  simp [escapeHtmlL, replaceChar_append]

lemma escapeHtmlL_single (a : Char) : escapeHtmlL [a] = escChar a := by
  by_cases h1 : a = '&'
  · subst h1; rfl
  by_cases h2 : a = '<'
  · subst h2; rfl
  by_cases h3 : a = '>'
  · subst h3; rfl
  by_cases h4 : a = '"'
  · subst h4; rfl
  by_cases h5 : a = '\''
  · subst h5; rfl
  simp [escapeHtmlL, replaceChar, escChar, h1, h2, h3, h4, h5]

lemma escapeHtmlL_cons (a : Char) (s : List Char) :
    escapeHtmlL (a :: s) = escChar a ++ escapeHtmlL s := by
  have h : a :: s = [a] ++ s := rfl
  rw [h, escapeHtmlL_append, escapeHtmlL_single]

lemma escapeHtmlL_eq_bind (s : List Char) : escapeHtmlL s = s.bind escChar := by
  induction s with
  | nil => rfl
  | cons a s ih => rw [escapeHtmlL_cons, ih]; rfl

/-!
Claim theorems.
-/

/-- C1: the claim expects raw-content tags not to be escaped, but the code
has no raw-content tag set: with the default server configuration,
`createElement("script", {}, undefined, "a<b")` escapes the child exactly
like `div` does, yielding `<script>a&lt;b</script>`, not the claimed
`<script>a<b</script>`. The `div` half of the claim does hold. -/
theorem c1_script_content_escaped_eval :
    createElementSSR defaultSSRConfig "script" [] none [Content.str "a<b"] =
      .ok "<script>a&lt;b</script>" ∧
    createElementSSR defaultSSRConfig "div" [] none [Content.str "a<b"] =
      .ok "<div>a&lt;b</div>" ∧
    "<script>a&lt;b</script>" ≠ "<script>a<b</script>" := by
  refine ⟨?_, ?_, by decide⟩
  · simp only [createElementSSR, flattenContent]
    rfl
  · simp only [createElementSSR, flattenContent]
    rfl

/-- C2: the claim expects text escaped by `createText` not to be escaped
again when used as a child, but the code carries no pre-escaped marker:
`createText("<b>", true)` yields `&lt;b&gt;` and embedding that string as
the sole child of a `div` re-escapes it, yielding
`<div>&amp;lt;b&amp;gt;</div>` — exactly the double-escaped output the
claim says must not occur. -/
theorem c2_double_escape_eval :
    createTextSSR "<b>" true = "&lt;b&gt;" ∧
    createElementSSR defaultSSRConfig "div" [] none
        [Content.str (createTextSSR "<b>" true)] =
      .ok "<div>&amp;lt;b&amp;gt;</div>" ∧
    "<div>&amp;lt;b&amp;gt;</div>" ≠ "<div>&lt;b&gt;</div>" := by
  refine ⟨rfl, ?_, by decide⟩
  simp only [createElementSSR, flattenContent]
  rfl

/-- C6: the claim expects `validateAttributes: false` in the options
argument to skip validation, but `validateAttribute` consults only the
builder configuration: with the default configuration, passing the option
still raises `UnsafeAttributeValue` for a dangerous attribute. -/
theorem c6_per_call_validate_option_ignored_eval :
    defaultSSRConfig.validateAttributes = true ∧
    createElementSSR defaultSSRConfig "iframe"
        [("srcdoc", AttrVal.str "javascript:alert(1)")]
        (some { escapeContent := none, validateAttributes := some (some false) }) [] =
      .error (.unsafeAttributeValue
        "Potentially unsafe value for attribute srcdoc: javascript:alert(1)") := by
  exact ⟨rfl, by decide⟩

/-!
Attribute serialization agrees with the spec-worded rendering.
-/

lemma buildAttrParts_ok (cfg : BuilderConfig) :
    ∀ attrs parts, buildAttrParts cfg attrs = .ok parts →
      parts = attrs.filterMap attrPartSpec := by
  intro attrs
  induction attrs with
  | nil =>
    intro parts h
    simp only [buildAttrParts, Except.ok.injEq] at h
    simp [h.symm]
  | cons p rest ih =>
    obtain ⟨name, value⟩ := p
    intro parts h
    simp only [buildAttrParts] at h
    split at h
    · rename_i hfn
      subst hfn
      simp [List.filterMap_cons, attrPartSpec, ih parts h]
    · rename_i hfn
      split at h
      · exact absurd h (by simp)
      · split at h
        · rename_i hnull
          rcases hnull with h0 | h0 <;> subst h0 <;>
            simp [List.filterMap_cons, attrPartSpec, ih parts h]
        · rename_i hnull
          split at h
          · rename_i hbool
            split at h
            · exact absurd h (by simp)
            · rename_i ps hr
              simp only [Except.ok.injEq] at h
              subst h
              rcases hbool with h0 | h0
              · subst h0
                simp [List.filterMap_cons, attrPartSpec, ih _ hr]
              · have h0m : name ∈ BOOLEAN_ATTRIBUTES := by simpa using h0
                cases value with
                | str s => simp [List.filterMap_cons, attrPartSpec, h0m, ih _ hr]
                | num n => simp [List.filterMap_cons, attrPartSpec, h0m, ih _ hr]
                | bool b =>
                  cases b
                  · exact absurd (Or.inr rfl) hnull
                  · simp [List.filterMap_cons, attrPartSpec, ih _ hr]
                | null => exact absurd (Or.inl rfl) hnull
                | fn => exact absurd rfl hfn
          · rename_i hbool
            rw [not_or] at hbool
            split at h
            · exact absurd h (by simp)
            · rename_i ps hr
              simp only [Except.ok.injEq] at h
              subst h
              cases value with
              | str s =>
                have hbm : name ∉ BOOLEAN_ATTRIBUTES := by
                  intro hc
                  exact hbool.2 (by simpa using hc)
                simp [List.filterMap_cons, attrPartSpec, hbm, ih _ hr]
              | num n =>
                have hbm : name ∉ BOOLEAN_ATTRIBUTES := by
                  intro hc
                  exact hbool.2 (by simpa using hc)
                simp [List.filterMap_cons, attrPartSpec, hbm, ih _ hr]
              | bool b =>
                cases b
                · exact absurd (Or.inr rfl) hnull
                · exact absurd rfl hbool.1
              | null => exact absurd (Or.inl rfl) hnull
              | fn => exact absurd rfl hfn

/-- C4: for every attribute map, a successfully built server-mode attribute
string is exactly the spec-worded rendering — entries in insertion order,
callables skipped, null/absent/false omitted, `true` or a boolean-attribute
name rendered name-only, everything else as `name="escaped-value"`, joined
by single spaces with one leading space; in particular
`createElement("input", {type: "checkbox", checked: true, disabled: false})`
yields `<input type="checkbox" checked>`. -/
theorem c4_attribute_serialization :
    (∀ cfg attrs s, buildAttributeString cfg attrs = .ok s → s = attrStringSpec attrs) ∧
    createElementSSR defaultSSRConfig "input"
        [("type", AttrVal.str "checkbox"), ("checked", AttrVal.bool true),
         ("disabled", AttrVal.bool false)] none [] =
      .ok "<input type=\"checkbox\" checked>" := by
  constructor
  · intro cfg attrs s h
    simp only [buildAttributeString] at h
    cases hp : buildAttrParts cfg attrs with
    | error e => rw [hp] at h; exact absurd h (by simp)
    | ok parts =>
      rw [hp] at h
      simp only [Except.ok.injEq] at h
      subst h
      rw [buildAttrParts_ok cfg attrs parts hp]
      rfl
  · decide

/-- C4 witness: the general statement instantiated at the concrete
checkbox attribute map. -/
theorem c4_attribute_serialization_witness :
    buildAttributeString defaultSSRConfig
        [("type", AttrVal.str "checkbox"), ("checked", AttrVal.bool true),
         ("disabled", AttrVal.bool false)] = .ok " type=\"checkbox\" checked" ∧
    " type=\"checkbox\" checked" =
      attrStringSpec [("type", AttrVal.str "checkbox"), ("checked", AttrVal.bool true),
        ("disabled", AttrVal.bool false)] :=
  ⟨by decide, c4_attribute_serialization.1 defaultSSRConfig _ _ (by decide)⟩

/-!
Void-tag rendering.
-/

/-- C5 (amended): whenever the lowercased tag name occurs in the union of
the standard void tags and the instance's custom void tags, the output is
exactly the opening tag with its serialized attributes — no closing tag,
and every supplied child is ignored. -/
theorem c5_void_tag_rendering (cfg : BuilderConfig) (tag : String)
    (attrs : List (String × AttrVal)) (opts : Option CreateElementOptions)
    (children : List Content) (s : String)
    (hv : (voidTags cfg).contains (lowerStr tag) = true)
    (ha : buildAttributeString cfg attrs = .ok s) :
    createElementSSR cfg tag attrs opts children = .ok ("<" ++ tag ++ s ++ ">") := by
  have hm : lowerStr tag ∈ voidTags cfg := by simpa using hv
  simp only [createElementSSR]
  rw [ha]
  simp [hm]

/-- C5 witness: `createElement("img", {src: "x.png"}, undefined, "ignored")`
yields `<img src="x.png">` exactly. -/
theorem c5_void_tag_rendering_witness :
    (voidTags defaultSSRConfig).contains (lowerStr "img") = true ∧
    buildAttributeString defaultSSRConfig [("src", AttrVal.str "x.png")] =
      .ok " src=\"x.png\"" ∧
    createElementSSR defaultSSRConfig "img" [("src", AttrVal.str "x.png")] none
        [Content.str "ignored"] = .ok "<img src=\"x.png\">" := by
  refine ⟨by decide, by decide, ?_⟩
  exact c5_void_tag_rendering defaultSSRConfig "img" [("src", AttrVal.str "x.png")] none
    [Content.str "ignored"] " src=\"x.png\"" (by decide) (by decide)

/-- A configuration whose custom void tag set holds an uppercase entry. -/
def fooCfg : BuilderConfig :=
  { isSsr := true, escapeContent := true, validateAttributes := true,
    customVoidTags := ["FOO"] }

/-- C5 counterexample: `"FOO"` lies in the union of the standard void tags
and `customVoidTags`, yet the element is rendered with a closing tag and
its child, because the membership test lowercases the tag name and compares
it literally against the set — it is not a case-insensitive match. -/
theorem c5_uppercase_custom_void_counterexample :
    fooCfg.customVoidTags.contains "FOO" = true ∧
    createElementSSR fooCfg "FOO" [] none [Content.str "ignored"] =
      .ok "<FOO>ignored</FOO>" ∧
    "<FOO>ignored</FOO>" ≠ "<FOO>" := by
  refine ⟨rfl, ?_, by decide⟩
  simp only [createElementSSR, flattenContent]
  rfl

/-!
Flattening of nested content.
-/

lemma flattenContent_eq_leafSeqList : ∀ cs, flattenContent cs = leafSeqList cs := by
  intro cs
  induction cs using flattenContent.induct with
  | case1 => simp [flattenContent, leafSeqList]
  | case2 cs rest ih1 ih2 => simp [flattenContent, leafSeq, leafSeqList, ih1, ih2]
  | case3 c rest h ih =>
    cases c with
    | list cs => exact absurd rfl (h cs)
    | str s => simp [flattenContent, leafSeq, leafSeqList, ih]
    | num n => simp [flattenContent, leafSeq, leafSeqList, ih]
    | null => simp [flattenContent, leafSeq, leafSeqList, ih]

lemma flattenContent_all_leaf : ∀ cs, (flattenContent cs).all isLeaf = true := by
  intro cs
  induction cs using flattenContent.induct with
  | case1 => simp [flattenContent]
  | case2 cs rest ih1 ih2 => simp [flattenContent, ih1, ih2]
  | case3 c rest h ih =>
    cases c with
    | list cs => exact absurd rfl (h cs)
    | str s => simp [flattenContent, isLeaf, ih]
    | num n => simp [flattenContent, isLeaf, ih]
    | null => simp [flattenContent, isLeaf, ih]

/-- C7: flattening collapses arbitrarily nested child sequences to the
linear sequence of their leaves in left-to-right order (every produced item
is a leaf), and the rendered output concatenates them in that order:
`createElement("ul", {}, undefined, [["a", "b"], "c", [["d"]]])` renders
`<ul>abcd</ul>`. -/
theorem c7_flattening_preserves_order :
    (∀ cs, flattenContent cs = leafSeqList cs) ∧
    (∀ cs, (flattenContent cs).all isLeaf = true) ∧
    createElementSSR defaultSSRConfig "ul" [] none
        [Content.list [Content.list [Content.str "a", Content.str "b"], Content.str "c",
          Content.list [Content.list [Content.str "d"]]]] =
      .ok "<ul>abcd</ul>" := by
  refine ⟨flattenContent_eq_leafSeqList, flattenContent_all_leaf, ?_⟩
  simp only [createElementSSR, flattenContent]
  rfl

/-!
Per-call escape overrides.
-/

/-- A server configuration whose content escaping default is off. -/
def noEscapeCfg : BuilderConfig :=
  { isSsr := true, escapeContent := false, validateAttributes := true, customVoidTags := [] }

/-- C9: an options object carrying an explicit boolean `escapeContent` is
honored exactly, regardless of the tag and of the configured default: the
merged flag passed to content processing is exactly the given boolean, a
string child is escaped precisely when it is `true`, and in particular
`createElement("script", {}, {escapeContent: true}, "a<b")` yields
`<script>a&lt;b</script>`. -/
theorem c9_explicit_escape_override :
    (∀ (cfg : BuilderConfig) (tag : String) (attrs : List (String × AttrVal))
        (v : Option (Option Bool)) (b : Bool) (children : List Content) (s : String),
        (voidTags cfg).contains (lowerStr tag) = false →
        buildAttributeString cfg attrs = .ok s →
        createElementSSR cfg tag attrs
            (some { escapeContent := some (some b), validateAttributes := v }) children =
          .ok ("<" ++ tag ++ s ++ ">" ++
            String.join ((flattenContent children).map
              (fun c => processContent cfg c (some b))) ++ "</" ++ tag ++ ">")) ∧
    (∀ (cfg : BuilderConfig) (b : Bool) (x : String),
        processContent cfg (Content.str x) (some b) = if b then escapeHtml x else x) ∧
    createElementSSR defaultSSRConfig "script" []
        (some { escapeContent := some (some true), validateAttributes := none })
        [Content.str "a<b"] = .ok "<script>a&lt;b</script>" := by
  refine ⟨?_, ?_, ?_⟩
  · intro cfg tag attrs v b children s hv ha
    have hm : lowerStr tag ∉ voidTags cfg := by simpa using hv
    simp only [createElementSSR, mergeOpts]
    rw [ha]
    simp [hm]
  · intro cfg b x
    cases b <;> simp [processContent]
  · simp only [createElementSSR, flattenContent]
    rfl

/-- C9 witness: the override instantiated on a builder whose default is
no-escaping — the explicit `escapeContent: true` still escapes. -/
theorem c9_explicit_escape_override_witness :
    (voidTags noEscapeCfg).contains (lowerStr "em") = false ∧
    buildAttributeString noEscapeCfg [] = .ok "" ∧
    createElementSSR noEscapeCfg "em" []
        (some { escapeContent := some (some true), validateAttributes := none })
        [Content.str "x<y"] = .ok "<em>x&lt;y</em>" := by
  refine ⟨by decide, by decide, ?_⟩
  have h := c9_explicit_escape_override.1 noEscapeCfg "em" [] none true
    [Content.str "x<y"] "" (by decide) (by decide)
  rw [h]
  simp only [flattenContent]
  rfl

/-- C10: an options object whose `escapeContent` key is present but
`undefined` overrides the configured default with `undefined`, which the
content processor treats as falsy — string children are rendered raw even
though the builder's `escapeContent` configuration is `true`. -/
theorem c10_undefined_escape_override :
    (∀ (cfg : BuilderConfig) (tag : String) (attrs : List (String × AttrVal))
        (v : Option (Option Bool)) (children : List Content) (s : String),
        cfg.escapeContent = true →
        (voidTags cfg).contains (lowerStr tag) = false →
        buildAttributeString cfg attrs = .ok s →
        createElementSSR cfg tag attrs
            (some { escapeContent := some none, validateAttributes := v }) children =
          .ok ("<" ++ tag ++ s ++ ">" ++
            String.join ((flattenContent children).map
              (fun c => processContent cfg c none)) ++ "</" ++ tag ++ ">")) ∧
    (∀ (cfg : BuilderConfig) (x : String), processContent cfg (Content.str x) none = x) ∧
    createElementSSR defaultSSRConfig "div" []
        (some { escapeContent := some none, validateAttributes := none })
        [Content.str "a<b"] = .ok "<div>a<b</div>" := by
  refine ⟨?_, ?_, ?_⟩
  · intro cfg tag attrs v children s hesc hv ha
    have hm : lowerStr tag ∉ voidTags cfg := by simpa using hv
    simp only [createElementSSR, mergeOpts]
    rw [ha]
    simp [hm]
  · intro cfg x
    simp [processContent]
  · simp only [createElementSSR, flattenContent]
    rfl

/-- C10 witness: the general statement instantiated at the default
configuration with a `div` and the child `"a<b"`. -/
theorem c10_undefined_escape_override_witness :
    defaultSSRConfig.escapeContent = true ∧
    (voidTags defaultSSRConfig).contains (lowerStr "div") = false ∧
    buildAttributeString defaultSSRConfig [] = .ok "" ∧
    createElementSSR defaultSSRConfig "div" []
        (some { escapeContent := some none, validateAttributes := none })
        [Content.str "x<y"] = .ok "<div>x<y</div>" := by
  refine ⟨rfl, by decide, by decide, ?_⟩
  have h := c10_undefined_escape_override.1 defaultSSRConfig "div" [] none
    [Content.str "x<y"] "" rfl (by decide) (by decide)
  rw [h]
  simp only [flattenContent]
  rfl

/-!
Dangerous-attribute rejection.
-/

lemma eq_empty_of_length_zero (s : String) (h : s.length = 0) : s = "" := by
  cases s with
  | mk data =>
    have hd : data = [] := List.length_eq_zero.mp (by simpa [String.length] using h)
    simp [hd]

lemma buildAttrParts_unsafe (cfg : BuilderConfig) (hv : cfg.validateAttributes = true) :
    ∀ attrs, (∀ p ∈ attrs, p.2 ≠ AttrVal.fn → p.1 ≠ "") →
      attrs.any isDangerousEntry = true →
      ∃ m, buildAttrParts cfg attrs = .error (.unsafeAttributeValue m) := by
  intro attrs
  induction attrs with
  | nil =>
    intro _ hd
    simp at hd
  | cons p rest ih =>
    obtain ⟨name, value⟩ := p
    intro hn hd
    by_cases hfn : value = AttrVal.fn
    · subst hfn
      have hd' : rest.any isDangerousEntry = true := by
        simpa [isDangerousEntry] using hd
      obtain ⟨m, hm⟩ := ih (fun q hq => hn q (List.mem_cons_of_mem _ hq)) hd'
      exact ⟨m, by simp [buildAttrParts, hm]⟩
    · have hname : name ≠ "" := hn (name, value) (List.mem_cons_self _ _) hfn
      have hlen : ¬ name.length = 0 := fun h0 => hname (eq_empty_of_length_zero name h0)
      by_cases hdang : isDangerousEntry (name, value) = true
      · cases value with
        | str s =>
          have hcond : (dangerousAttributes.contains (lowerStr name) &&
              (containsSub "javascript:" s || containsSub "data:text/html" s)) = true := by
            simpa [isDangerousEntry] using hdang
          have hval : validateAttribute cfg name (AttrVal.str s) =
              .error (.unsafeAttributeValue
                ("Potentially unsafe value for attribute " ++ name ++ ": " ++ s)) := by
            unfold validateAttribute
            rw [hv]
            rw [if_neg (by decide : ¬ (true = false)), if_neg hlen]
            simp only [hcond, if_true]
          refine ⟨"Potentially unsafe value for attribute " ++ name ++ ": " ++ s, ?_⟩
          simp [buildAttrParts, hfn, hval]
        | num n => simp [isDangerousEntry] at hdang
        | bool b => simp [isDangerousEntry] at hdang
        | null => simp [isDangerousEntry] at hdang
        | fn => exact absurd rfl hfn
      · have hdf : isDangerousEntry (name, value) = false := Bool.eq_false_iff.mpr hdang
        have hd' : rest.any isDangerousEntry = true := by
          simpa [List.any_cons, hdf] using hd
        obtain ⟨m, hm⟩ := ih (fun q hq => hn q (List.mem_cons_of_mem _ hq)) hd'
        have hval : validateAttribute cfg name value = .ok () := by
          unfold validateAttribute
          rw [hv]
          rw [if_neg (by decide : ¬ (true = false)), if_neg hlen]
          cases value with
          | str s =>
            have hcond : (dangerousAttributes.contains (lowerStr name) &&
                (containsSub "javascript:" s || containsSub "data:text/html" s)) = false := by
              simpa [isDangerousEntry] using hdf
            simp only [hcond]
            rfl
          | num n => rfl
          | bool b => rfl
          | null => rfl
          | fn => rfl
        refine ⟨m, ?_⟩
        by_cases h1 : value = AttrVal.null ∨ value = AttrVal.bool false
        · simp [buildAttrParts, hfn, hval, h1, hm]
        · by_cases h2 : value = AttrVal.bool true ∨ BOOLEAN_ATTRIBUTES.contains name
          · simp [buildAttrParts, hfn, hval, h1, h2, hm]
          · simp [buildAttrParts, hfn, hval, h1, h2, hm]

/-- C3 (amended): with attribute validation enabled, whenever every
non-callable attribute entry has a non-empty name and some entry has a
blocklisted name (case-insensitively `srcdoc` or `formaction`) with a
string value containing `javascript:` or `data:text/html`, the call raises
the `UnsafeAttributeValue` condition and produces no output. (An entry with
an empty name appearing earlier would raise `InvalidAttributeName` first.) -/
theorem c3_dangerous_attribute_rejection (cfg : BuilderConfig) (tag : String)
    (attrs : List (String × AttrVal)) (opts : Option CreateElementOptions)
    (children : List Content)
    (hv : cfg.validateAttributes = true)
    (hn : ∀ p ∈ attrs, p.2 ≠ AttrVal.fn → p.1 ≠ "")
    (hd : attrs.any isDangerousEntry = true) :
    isUnsafeResult (createElementSSR cfg tag attrs opts children) = true := by
  obtain ⟨m, hm⟩ := buildAttrParts_unsafe cfg hv attrs hn hd
  simp [createElementSSR, buildAttributeString, hm, isUnsafeResult]

/-- C3 witness: `createElement("iframe", {srcdoc: "javascript:alert(1)"})`
raises `UnsafeAttributeValue`. -/
theorem c3_dangerous_attribute_rejection_witness :
    defaultSSRConfig.validateAttributes = true ∧
    (∀ p ∈ [("srcdoc", AttrVal.str "javascript:alert(1)")], p.2 ≠ AttrVal.fn → p.1 ≠ "") ∧
    [("srcdoc", AttrVal.str "javascript:alert(1)")].any isDangerousEntry = true ∧
    isUnsafeResult (createElementSSR defaultSSRConfig "iframe"
        [("srcdoc", AttrVal.str "javascript:alert(1)")] none []) = true :=
  ⟨rfl, by decide, by decide,
    c3_dangerous_attribute_rejection defaultSSRConfig "iframe"
      [("srcdoc", AttrVal.str "javascript:alert(1)")] none [] rfl (by decide) (by decide)⟩

/-- C3 counterexample: with validation enabled and a blocklisted dangerous
entry present, the call does not raise `UnsafeAttributeValue` when an
earlier entry has an empty name — it raises `InvalidAttributeName`
instead, refuting the claim as universally stated. -/
theorem c3_earlier_invalid_name_counterexample :
    defaultSSRConfig.validateAttributes = true ∧
    [(("" : String), AttrVal.str "x"),
      ("srcdoc", AttrVal.str "javascript:alert(1)")].any isDangerousEntry = true ∧
    createElementSSR defaultSSRConfig "iframe"
        [("", AttrVal.str "x"), ("srcdoc", AttrVal.str "javascript:alert(1)")] none [] =
      .error (.invalidAttributeName "Invalid attribute name: ") ∧
    isUnsafeResult (createElementSSR defaultSSRConfig "iframe"
        [("", AttrVal.str "x"), ("srcdoc", AttrVal.str "javascript:alert(1)")] none []) =
      false :=
  ⟨rfl, by decide, by decide, by decide⟩

/-!
Lemmas about literal global replacement, used to invert the escaping
transform.
-/

lemma replaceStr_nil (needle repl : List Char) : replaceStr needle repl [] = [] := by
  simp [replaceStr]

lemma replaceStr_pos (needle repl : List Char) (x : Char) (xs : List Char)
    (h : needle.isPrefixOf (x :: xs) ∧ needle ≠ []) :
    replaceStr needle repl (x :: xs) =
      repl ++ replaceStr needle repl ((x :: xs).drop needle.length) := by
  simp only [replaceStr]
  rw [dif_pos h]

lemma replaceStr_skip (needle repl : List Char) (x : Char) (xs : List Char)
    (h : needle.isPrefixOf (x :: xs) = false) :
    replaceStr needle repl (x :: xs) = x :: replaceStr needle repl xs := by
  have hnc : ¬ (needle.isPrefixOf (x :: xs) ∧ needle ≠ []) := by
    intro hc
    have h1 := hc.1
    simp [h] at h1
  simp only [replaceStr]
  rw [dif_neg hnc]

lemma isPrefixOf_append_self : ∀ (l t : List Char), l.isPrefixOf (l ++ t) = true := by
  intro l t
  induction l with
  | nil => simp [List.isPrefixOf]
  | cons a l ih => simp [List.isPrefixOf, ih]

lemma replaceStr_self (n0 : Char) (nt repl t : List Char) :
    replaceStr (n0 :: nt) repl ((n0 :: nt) ++ t) = repl ++ replaceStr (n0 :: nt) repl t := by
  have h : (n0 :: nt).isPrefixOf (n0 :: (nt ++ t)) ∧ (n0 :: nt) ≠ [] := by
    constructor
    · have h0 := isPrefixOf_append_self (n0 :: nt) t
      simp only [List.cons_append] at h0
      exact h0
    · simp
  rw [show (n0 :: nt) ++ t = n0 :: (nt ++ t) from rfl]
  rw [replaceStr_pos (n0 :: nt) repl n0 (nt ++ t) h]
  congr 1
  rw [List.length_cons, List.drop_succ_cons, List.drop_left]

lemma replaceStr_skip_single (n0 : Char) (nt repl : List Char) (x : Char) (xs : List Char)
    (h : ¬ x = n0) :
    replaceStr (n0 :: nt) repl (x :: xs) = x :: replaceStr (n0 :: nt) repl xs := by
  apply replaceStr_skip
  have hb : (n0 == x) = false := beq_eq_false_iff_ne.mpr (fun he => h he.symm)
  simp [List.isPrefixOf, hb]

lemma replaceStr_skip_pair (n0 n1 : Char) (nt repl : List Char) (x y : Char) (t : List Char)
    (h : ¬ y = n1) :
    replaceStr (n0 :: n1 :: nt) repl (x :: y :: t) =
      x :: replaceStr (n0 :: n1 :: nt) repl (y :: t) := by
  apply replaceStr_skip
  have hb : (n1 == y) = false := beq_eq_false_iff_ne.mpr (fun he => h he.symm)
  simp [List.isPrefixOf, hb]

lemma replaceStr_skip_run (n0 : Char) (nt repl : List Char) :
    ∀ (run t : List Char), (∀ c ∈ run, ¬ c = n0) →
      replaceStr (n0 :: nt) repl (run ++ t) = run ++ replaceStr (n0 :: nt) repl t := by
  intro run
  induction run with
  | nil => intro t _; rfl
  | cons c run ih =>
    intro t h
    rw [List.cons_append,
      replaceStr_skip_single n0 nt repl c (run ++ t) (h c (List.mem_cons_self _ _)),
      ih t (fun d hd => h d (List.mem_cons_of_mem _ hd))]
    rfl

lemma replaceStr_pass_entity (n0 n1 : Char) (nt repl : List Char) (b1 : Char)
    (bs t : List Char) (h1 : ¬ b1 = n1) (h2 : ∀ c ∈ b1 :: bs, ¬ c = n0) :
    replaceStr (n0 :: n1 :: nt) repl ((n0 :: b1 :: bs) ++ t) =
      (n0 :: b1 :: bs) ++ replaceStr (n0 :: n1 :: nt) repl t := by
  rw [show (n0 :: b1 :: bs) ++ t = n0 :: b1 :: (bs ++ t) from rfl]
  rw [replaceStr_skip_pair n0 n1 nt repl n0 b1 (bs ++ t) h1]
  rw [show b1 :: (bs ++ t) = (b1 :: bs) ++ t from rfl]
  rw [replaceStr_skip_run n0 (n1 :: nt) repl (b1 :: bs) t h2]
  rfl

lemma bind_singleton_id : ∀ (l : List Char), l.bind (fun c => [c]) = l := by
  intro l
  induction l with
  | nil => rfl
  | cons a l ih =>
    rw [show (a :: l).bind (fun c => [c]) = a :: l.bind (fun c => [c]) from rfl, ih]

/-!
Stage-by-stage inversion of the escaping transform.
-/

lemma decode_stage_lt : ∀ l : List Char,
    replaceStr ltE ['<'] (l.bind escChar) = l.bind escChar1 := by
  intro l
  induction l with
  | nil => simp [replaceStr_nil]
  | cons a l ih =>
    have el : ltE = '&' :: 'l' :: ['t', ';'] := rfl
    rw [el] at ih ⊢
    rw [show (a :: l).bind escChar = escChar a ++ l.bind escChar from rfl]
    rw [show (a :: l).bind escChar1 = escChar1 a ++ l.bind escChar1 from rfl]
    by_cases h1 : a = '&'
    · subst h1
      rw [show escChar '&' = '&' :: 'a' :: ['m', 'p', ';'] from rfl,
        show escChar1 '&' = '&' :: 'a' :: ['m', 'p', ';'] from rfl]
      rw [replaceStr_pass_entity '&' 'l' ['t', ';'] ['<'] 'a' ['m', 'p', ';']
        (l.bind escChar) (by decide) (by decide), ih]
    by_cases h2 : a = '<'
    · subst h2
      rw [show escChar '<' = ('&' :: 'l' :: ['t', ';'] : List Char) from rfl,
        show escChar1 '<' = ['<'] from rfl]
      rw [replaceStr_self '&' ['l', 't', ';'] ['<'] (l.bind escChar), ih]
    by_cases h3 : a = '>'
    · subst h3
      rw [show escChar '>' = '&' :: 'g' :: ['t', ';'] from rfl,
        show escChar1 '>' = '&' :: 'g' :: ['t', ';'] from rfl]
      rw [replaceStr_pass_entity '&' 'l' ['t', ';'] ['<'] 'g' ['t', ';']
        (l.bind escChar) (by decide) (by decide), ih]
    by_cases h4 : a = '"'
    · subst h4
      rw [show escChar '"' = '&' :: 'q' :: ['u', 'o', 't', ';'] from rfl,
        show escChar1 '"' = '&' :: 'q' :: ['u', 'o', 't', ';'] from rfl]
      rw [replaceStr_pass_entity '&' 'l' ['t', ';'] ['<'] 'q' ['u', 'o', 't', ';']
        (l.bind escChar) (by decide) (by decide), ih]
    by_cases h5 : a = '\''
    · subst h5
      rw [show escChar '\'' = '&' :: '#' :: ['0', '3', '9', ';'] from rfl,
        show escChar1 '\'' = '&' :: '#' :: ['0', '3', '9', ';'] from rfl]
      rw [replaceStr_pass_entity '&' 'l' ['t', ';'] ['<'] '#' ['0', '3', '9', ';']
        (l.bind escChar) (by decide) (by decide), ih]
    have e1 : escChar a = [a] := by simp [escChar, h1, h2, h3, h4, h5]
    have e2 : escChar1 a = [a] := by simp [escChar1, h1, h3, h4, h5]
    rw [e1, e2]
    rw [show ([a] : List Char) ++ l.bind escChar = a :: l.bind escChar from rfl,
      show ([a] : List Char) ++ l.bind escChar1 = a :: l.bind escChar1 from rfl]
    rw [replaceStr_skip_single '&' ['l', 't', ';'] ['<'] a (l.bind escChar) h1, ih]

lemma decode_stage_gt : ∀ l : List Char,
    replaceStr gtE ['>'] (l.bind escChar1) = l.bind escChar2 := by
  intro l
  induction l with
  | nil => simp [replaceStr_nil]
  | cons a l ih =>
    have el : gtE = '&' :: 'g' :: ['t', ';'] := rfl
    rw [el] at ih ⊢
    rw [show (a :: l).bind escChar1 = escChar1 a ++ l.bind escChar1 from rfl]
    rw [show (a :: l).bind escChar2 = escChar2 a ++ l.bind escChar2 from rfl]
    by_cases h1 : a = '&'
    · subst h1
      rw [show escChar1 '&' = '&' :: 'a' :: ['m', 'p', ';'] from rfl,
        show escChar2 '&' = '&' :: 'a' :: ['m', 'p', ';'] from rfl]
      rw [replaceStr_pass_entity '&' 'g' ['t', ';'] ['>'] 'a' ['m', 'p', ';']
        (l.bind escChar1) (by decide) (by decide), ih]
    by_cases h2 : a = '>'
    · subst h2
      rw [show escChar1 '>' = ('&' :: 'g' :: ['t', ';'] : List Char) from rfl,
        show escChar2 '>' = ['>'] from rfl]
      rw [replaceStr_self '&' ['g', 't', ';'] ['>'] (l.bind escChar1), ih]
    by_cases h3 : a = '"'
    · subst h3
      rw [show escChar1 '"' = '&' :: 'q' :: ['u', 'o', 't', ';'] from rfl,
        show escChar2 '"' = '&' :: 'q' :: ['u', 'o', 't', ';'] from rfl]
      rw [replaceStr_pass_entity '&' 'g' ['t', ';'] ['>'] 'q' ['u', 'o', 't', ';']
        (l.bind escChar1) (by decide) (by decide), ih]
    by_cases h4 : a = '\''
    · subst h4
      rw [show escChar1 '\'' = '&' :: '#' :: ['0', '3', '9', ';'] from rfl,
        show escChar2 '\'' = '&' :: '#' :: ['0', '3', '9', ';'] from rfl]
      rw [replaceStr_pass_entity '&' 'g' ['t', ';'] ['>'] '#' ['0', '3', '9', ';']
        (l.bind escChar1) (by decide) (by decide), ih]
    have e1 : escChar1 a = [a] := by simp [escChar1, h1, h2, h3, h4]
    have e2 : escChar2 a = [a] := by simp [escChar2, h1, h3, h4]
    rw [e1, e2]
    rw [show ([a] : List Char) ++ l.bind escChar1 = a :: l.bind escChar1 from rfl,
      show ([a] : List Char) ++ l.bind escChar2 = a :: l.bind escChar2 from rfl]
    rw [replaceStr_skip_single '&' ['g', 't', ';'] ['>'] a (l.bind escChar1) h1, ih]

lemma decode_stage_quot : ∀ l : List Char,
    replaceStr quotE ['"'] (l.bind escChar2) = l.bind escChar3 := by
  intro l
  induction l with
  | nil => simp [replaceStr_nil]
  | cons a l ih =>
    have el : quotE = '&' :: 'q' :: ['u', 'o', 't', ';'] := rfl
    rw [el] at ih ⊢
    rw [show (a :: l).bind escChar2 = escChar2 a ++ l.bind escChar2 from rfl]
    rw [show (a :: l).bind escChar3 = escChar3 a ++ l.bind escChar3 from rfl]
    by_cases h1 : a = '&'
    · subst h1
      rw [show escChar2 '&' = '&' :: 'a' :: ['m', 'p', ';'] from rfl,
        show escChar3 '&' = '&' :: 'a' :: ['m', 'p', ';'] from rfl]
      rw [replaceStr_pass_entity '&' 'q' ['u', 'o', 't', ';'] ['"'] 'a' ['m', 'p', ';']
        (l.bind escChar2) (by decide) (by decide), ih]
    by_cases h2 : a = '"'
    · subst h2
      rw [show escChar2 '"' = ('&' :: 'q' :: ['u', 'o', 't', ';'] : List Char) from rfl,
        show escChar3 '"' = ['"'] from rfl]
      rw [replaceStr_self '&' ['q', 'u', 'o', 't', ';'] ['"'] (l.bind escChar2), ih]
    by_cases h3 : a = '\''
    · subst h3
      rw [show escChar2 '\'' = '&' :: '#' :: ['0', '3', '9', ';'] from rfl,
        show escChar3 '\'' = '&' :: '#' :: ['0', '3', '9', ';'] from rfl]
      rw [replaceStr_pass_entity '&' 'q' ['u', 'o', 't', ';'] ['"'] '#' ['0', '3', '9', ';']
        (l.bind escChar2) (by decide) (by decide), ih]
    have e1 : escChar2 a = [a] := by simp [escChar2, h1, h2, h3]
    have e2 : escChar3 a = [a] := by simp [escChar3, h1, h3]
    rw [e1, e2]
    rw [show ([a] : List Char) ++ l.bind escChar2 = a :: l.bind escChar2 from rfl,
      show ([a] : List Char) ++ l.bind escChar3 = a :: l.bind escChar3 from rfl]
    rw [replaceStr_skip_single '&' ['q', 'u', 'o', 't', ';'] ['"'] a (l.bind escChar2) h1, ih]

lemma decode_stage_apos : ∀ l : List Char,
    replaceStr aposE ['\''] (l.bind escChar3) = l.bind escChar4 := by
  intro l
  induction l with
  | nil => simp [replaceStr_nil]
  | cons a l ih =>
    have el : aposE = '&' :: '#' :: ['0', '3', '9', ';'] := rfl
    rw [el] at ih ⊢
    rw [show (a :: l).bind escChar3 = escChar3 a ++ l.bind escChar3 from rfl]
    rw [show (a :: l).bind escChar4 = escChar4 a ++ l.bind escChar4 from rfl]
    by_cases h1 : a = '&'
    · subst h1
      rw [show escChar3 '&' = '&' :: 'a' :: ['m', 'p', ';'] from rfl,
        show escChar4 '&' = '&' :: 'a' :: ['m', 'p', ';'] from rfl]
      rw [replaceStr_pass_entity '&' '#' ['0', '3', '9', ';'] ['\''] 'a' ['m', 'p', ';']
        (l.bind escChar3) (by decide) (by decide), ih]
    by_cases h2 : a = '\''
    · subst h2
      rw [show escChar3 '\'' = ('&' :: '#' :: ['0', '3', '9', ';'] : List Char) from rfl,
        show escChar4 '\'' = ['\''] from rfl]
      rw [replaceStr_self '&' ['#', '0', '3', '9', ';'] ['\''] (l.bind escChar3), ih]
    have e1 : escChar3 a = [a] := by simp [escChar3, h1, h2]
    have e2 : escChar4 a = [a] := by simp [escChar4, h1]
    rw [e1, e2]
    rw [show ([a] : List Char) ++ l.bind escChar3 = a :: l.bind escChar3 from rfl,
      show ([a] : List Char) ++ l.bind escChar4 = a :: l.bind escChar4 from rfl]
    rw [replaceStr_skip_single '&' ['#', '0', '3', '9', ';'] ['\''] a (l.bind escChar3) h1, ih]

lemma decode_stage_amp : ∀ l : List Char,
    replaceStr ampE ['&'] (l.bind escChar4) = l.bind (fun c => [c]) := by
  intro l
  induction l with
  | nil => simp [replaceStr_nil]
  | cons a l ih =>
    have el : ampE = '&' :: 'a' :: ['m', 'p', ';'] := rfl
    rw [el] at ih ⊢
    rw [show (a :: l).bind escChar4 = escChar4 a ++ l.bind escChar4 from rfl]
    rw [show (a :: l).bind (fun c => [c]) = a :: l.bind (fun c => [c]) from rfl]
    by_cases h1 : a = '&'
    · subst h1
      rw [show escChar4 '&' = ('&' :: 'a' :: ['m', 'p', ';'] : List Char) from rfl]
      rw [replaceStr_self '&' ['a', 'm', 'p', ';'] ['&'] (l.bind escChar4), ih]
      rfl
    have e1 : escChar4 a = [a] := by simp [escChar4, h1]
    rw [e1]
    rw [show ([a] : List Char) ++ l.bind escChar4 = a :: l.bind escChar4 from rfl]
    rw [replaceStr_skip_single '&' ['a', 'm', 'p', ';'] ['&'] a (l.bind escChar4) h1, ih]

lemma decodeHtmlL_escapeHtmlL (l : List Char) : decodeHtmlL (escapeHtmlL l) = l := by
  rw [escapeHtmlL_eq_bind]
  unfold decodeHtmlL
  rw [decode_stage_lt, decode_stage_gt, decode_stage_quot, decode_stage_apos,
    decode_stage_amp, bind_singleton_id]

lemma decodeHtml_escapeHtml (s : String) : decodeHtml (escapeHtml s) = s := by
  cases s with
  | mk data =>
    show String.mk (decodeHtmlL (escapeHtmlL data)) = String.mk data
    rw [decodeHtmlL_escapeHtmlL]

lemma escChar_all_noRawFour (a : Char) : (escChar a).all noRawFour = true := by
  by_cases h1 : a = '&'
  · subst h1; decide
  by_cases h2 : a = '<'
  · subst h2; decide
  by_cases h3 : a = '>'
  · subst h3; decide
  by_cases h4 : a = '"'
  · subst h4; decide
  by_cases h5 : a = '\''
  · subst h5; decide
  have e : escChar a = [a] := by simp [escChar, h1, h2, h3, h4, h5]
  rw [e]
  have b2 : (a == '<') = false := beq_eq_false_iff_ne.mpr h2
  have b3 : (a == '>') = false := beq_eq_false_iff_ne.mpr h3
  have b4 : (a == '"') = false := beq_eq_false_iff_ne.mpr h4
  have b5 : (a == '\'') = false := beq_eq_false_iff_ne.mpr h5
  simp [noRawFour, b2, b3, b4, b5]

lemma escapeHtmlL_all_noRawFour : ∀ l, (escapeHtmlL l).all noRawFour = true := by
  intro l
  induction l with
  | nil => rfl
  | cons a l ih =>
    rw [escapeHtmlL_cons, List.all_append]
    simp [ih, escChar_all_noRawFour]

/-- C8 (amended): for every string containing one of the five
markup-special characters, `escapeHtml` produces a string with no raw
`<`, `>`, `"` or `'` (ampersands necessarily remain, as the head of each
entity), and applying the inverses of the five fixed replacements — the
`&amp;`→`&` inverse last — exactly recovers the input. -/
theorem c8_escape_roundtrip (s : String) (hs : s.data.any isSpecialChar = true) :
    (escapeHtml s).data.all noRawFour = true ∧ decodeHtml (escapeHtml s) = s :=
  ⟨escapeHtmlL_all_noRawFour s.data, decodeHtml_escapeHtml s⟩

/-- C8 witness: the round trip at `"a<b"`. -/
theorem c8_escape_roundtrip_witness :
    "a<b".data.any isSpecialChar = true ∧
    ((escapeHtml "a<b").data.all noRawFour = true ∧ decodeHtml (escapeHtml "a<b") = "a<b") :=
  ⟨by decide, c8_escape_roundtrip "a<b" (by decide)⟩

/-- C8 counterexample: the claim also asserts the output contains none of
the five raw characters, `&` included — but `escapeHtml "<"` is `"&lt;"`,
which contains the raw character `&`. -/
theorem c8_output_contains_ampersand_counterexample :
    "<".data.any isSpecialChar = true ∧
    escapeHtml "<" = "&lt;" ∧
    '&' ∈ (escapeHtml "<").data ∧ isSpecialChar '&' = true :=
  ⟨by decide, rfl, by decide, rfl⟩
